import Mathlib

/-!
# Pricefetcher: the price service, its logging decorator and the JSON adapter

A shallow embedding of `service.go`, `json_api.go` and the URL construction of
`client/client.go`.

Conventions of the embedding.

* A Go `string` is a byte sequence; it is represented by a Lean `String` with
  one character per byte.
* A Go `error` value is a `GoError` carrying the text of `Error()`; the `error`
  interface value is an `Option GoError`, `none` being `nil`.
* A `float64` is a `Float64`: a finite value (an exact rational), `NaN`, or an
  infinity. The program performs no arithmetic on prices.
* Effects are explicit: the wall clock and the logrus output live in `World`,
  the global random source in `Rand`, the response being written in
  `ResponseWriter`.
-/

set_option autoImplicit false

namespace Pricefetcher

/-! ## Values -/

/-- Go `float64`: finite values, `NaN`, `+Inf`, `-Inf`. -/
inductive Float64 where
  | finite (q : ℚ)
  | nan
  | posInf
  | negInf
  deriving DecidableEq

/-- The zero value of `float64`. -/
def Float64.zero : Float64 := .finite 0

/-- Go `error` value: the text returned by `Error()`. -/
structure GoError where
  msg : String
  deriving DecidableEq

/-- Method `Error()` of an `error`. -/
def GoError.Error (e : GoError) : String := e.msg

/-! ## context.Context -/

/-- A `context.Context`, as the chain of key/value pairs attached to it, the
most recently attached first. The only values the program stores are ints. -/
structure Context where
  values : List (String × Nat)
  deriving DecidableEq

/-- Go `context.Background()`. -/
def Context.Background : Context := ⟨[]⟩

/-- Go `context.WithValue(ctx, key, val)`. -/
def Context.WithValue (ctx : Context) (key : String) (val : Nat) : Context :=
  ⟨(key, val) :: ctx.values⟩

/-- Go `ctx.Value(key)`: the innermost value attached under `key`, `none` for
`nil`. -/
def Context.Value (ctx : Context) (key : String) : Option Nat :=
  ctx.values.lookup key

/-! ## The world: clock and log -/

/-- One logrus entry written by `loggingService.FetchPrice`: the four fields of
`logrus.Fields` and the message passed to `Info`. -/
structure LogRecord where
  requestID : Option Nat
  took : Nat
  err : Option GoError
  price : Float64
  message : String
  deriving DecidableEq

/-- The ambient state a service call can touch: the clock (in milliseconds) and
the entries logged so far, oldest first. -/
structure World where
  clock : Nat
  log : List LogRecord
  deriving DecidableEq

/-- Go `time.Sleep(d)`, `d` in milliseconds. -/
def World.Sleep (w : World) (d : Nat) : World :=
  { w with clock := w.clock + d }

/-- Go `time.Now()`. -/
def World.Now (w : World) : Nat := w.clock

/-- Go `time.Since(begin)`. -/
def World.Since (w : World) (start : Nat) : Nat := w.clock - start

/-- The logrus call `WithFields(...).Info(...)`: append one entry. -/
def World.Info (w : World) (r : LogRecord) : World :=
  { w with log := w.log ++ [r] }

/-! ## service.go -/

/-- Result of `FetchPrice`: the `(float64, error)` pair. -/
abbrev FetchResult := Float64 × Option GoError

/-- The interface `PriceService`: any implementation of `FetchPrice`. -/
structure PriceService where
  FetchPrice : Context → String → World → FetchResult × World

/-- The table `priceMocks`. -/
def priceMocks : List (String × Float64) :=
  [("BTC", .finite 20000), ("ETH", .finite 2000), ("SAI", .finite 10000)]

/-- Go `fmt.Errorf("the given ticker (%s) is not supported", ticker)`. -/
def unsupportedTicker (ticker : String) : GoError :=
  ⟨"the given ticker (" ++ ticker ++ ") is not supported"⟩

/-- Method `(*priceService).FetchPrice`: sleep 100ms, look the ticker up in
`priceMocks`; on a miss `price` is the zero value and the error names the
ticker. -/
def priceService.FetchPrice (_ctx : Context) (ticker : String) (w : World) :
    FetchResult × World :=
  let w1 := w.Sleep 100
  match priceMocks.lookup ticker with
  | none => ((Float64.zero, some (unsupportedTicker ticker)), w1)
  | some price => ((price, none), w1)

/-- Method `loggingService.FetchPrice`. The deferred closure receives
`time.Now()` evaluated on entry and runs after the named results `price` and
`err` have been set by the `return` statement. -/
def loggingService.FetchPrice (ctx : Context) (ticker : String) (w : World) :
    FetchResult × World :=
  let start := w.Now
  let (res, w1) := priceService.FetchPrice ctx ticker w
  let w2 := w1.Info
    { requestID := ctx.Value "requestID"
      took := w1.Since start
      err := res.2
      price := res.1
      message := "fetchPrice" }
  (res, w2)

/-- The value `svc = loggingService{priceService{}}` built in `main`, seen
through the interface `PriceService`. -/
def main.svc : PriceService := ⟨loggingService.FetchPrice⟩

/-! ## JSON documents and the response writer -/

/-- A scalar of a JSON document: a string, given by the bytes (UTF-8) of the
text it denotes, or a number, given by the `float64` it is the shortest decimal
of. -/
inductive JSONScalar where
  | str (s : String)
  | num (q : ℚ)
  deriving DecidableEq

/-- A flat JSON object, fields in the order they are written. -/
abbrev JSONObject := List (String × JSONScalar)

/-- Modelled from the spec: the struct `types.PriceResponse` (package `types`
is not among the sources); the spec gives its JSON form as
`{"ticker": <symbol>, "price": <number>}`. -/
structure PriceResponse where
  Ticker : String
  Price : Float64
  deriving DecidableEq

/-- The values the program passes to `writeJSON` as `v any`. -/
inductive Payload where
  /-- The pointer `&priceResp`. -/
  | priceResp (p : PriceResponse)
  /-- The map `map[string]any{"error": msg}`. -/
  | errorMap (msg : String)
  deriving DecidableEq

/-- Whether the byte `c` lies in the range `lo..hi`. -/
def byteIn (lo hi : Nat) (c : Char) : Bool :=
  decide (lo ≤ c.toNat) && decide (c.toNat ≤ hi)

/-- Go `utf8.DecodeRuneInString` on the bytes `b0 :: rest`, as far as
`encoding/json` uses it: the width of the UTF-8 sequence at the head, `none`
when the head is not the start of a well-formed sequence (Go returns
`RuneError` with width 1). The ranges are those of the tables `first` and
`acceptRanges` of `unicode/utf8`. -/
def utf8Width (b0 : Char) (rest : List Char) : Option Nat :=
  if b0.toNat < 0x80 then some 1
  else if b0.toNat < 0xC2 then none
  else if b0.toNat < 0xE0 then
    match rest with
    | s1 :: _ => if byteIn 0x80 0xBF s1 then some 2 else none
    | _ => none
  else if b0.toNat < 0xF0 then
    match rest with
    | s1 :: s2 :: _ =>
      if byteIn (if b0.toNat = 0xE0 then 0xA0 else 0x80)
            (if b0.toNat = 0xED then 0x9F else 0xBF) s1 &&
          byteIn 0x80 0xBF s2 then some 3
      else none
    | _ => none
  else if b0.toNat < 0xF5 then
    match rest with
    | s1 :: s2 :: s3 :: _ =>
      if byteIn (if b0.toNat = 0xF0 then 0x90 else 0x80)
            (if b0.toNat = 0xF4 then 0x8F else 0xBF) s1 &&
          byteIn 0x80 0xBF s2 && byteIn 0x80 0xBF s3 then some 4
      else none
    | _ => none
  else none

/-- The bytes of U+FFFD, the Unicode replacement character, in UTF-8. -/
def replacementBytes : List Char := [Char.ofNat 0xEF, Char.ofNat 0xBF, Char.ofNat 0xBD]

/-- The loop of `appendString` of `encoding/json` over the bytes of a string:
`skip` is the number of bytes still to copy of the sequence in progress; at the
start of a sequence, a well-formed one is copied and a byte that starts none is
replaced by U+FFFD. -/
def coerceUTF8 : Nat → List Char → List Char
  | _, [] => []
  | skip + 1, b :: rest => b :: coerceUTF8 skip rest
  | 0, b :: rest =>
    match utf8Width b rest with
    | none => replacementBytes ++ coerceUTF8 0 rest
    | some n => b :: coerceUTF8 (n - 1) rest

/-- The text a JSON string written by `encoding/json` for the Go string `s`
denotes: `s` coerced to valid UTF-8, invalid bytes replaced by U+FFFD. -/
def jsonString (s : String) : String := String.mk (coerceUTF8 0 s.data)

/-- The loop of `utf8.ValidString`, `skip` as in `coerceUTF8`. -/
def validUTF8From : Nat → List Char → Bool
  | _, [] => true
  | skip + 1, _ :: rest => validUTF8From skip rest
  | 0, b :: rest =>
    match utf8Width b rest with
    | none => false
    | some n => validUTF8From (n - 1) rest

/-- Go `utf8.ValidString`. -/
def ValidString (s : String) : Bool := validUTF8From 0 s.data

/-- Marshalling done by `json.Encoder.Encode`: strings are coerced to valid
UTF-8; `encoding/json` rejects `NaN` and the infinities with an
`UnsupportedValueError`. -/
def jsonMarshal : Payload → Except GoError JSONObject
  | .errorMap msg => .ok [("error", .str (jsonString msg))]
  | .priceResp p =>
    match p.Price with
    | .finite q => .ok [("ticker", .str (jsonString p.Ticker)), ("price", .num q)]
    | .nan => .error ⟨"json: unsupported value: NaN"⟩
    | .posInf => .error ⟨"json: unsupported value: +Inf"⟩
    | .negInf => .error ⟨"json: unsupported value: -Inf"⟩

/-- An `http.ResponseWriter`: every `WriteHeader` call made on it, in order;
the documents written to the body, in order; and the error, if any, with which
its `Write` fails (a failing `Write` adds nothing to the body). -/
structure ResponseWriter where
  headerCalls : List Nat
  body : List JSONObject
  writeErr : Option GoError
  deriving DecidableEq

/-- A response writer nothing has been written to, whose `Write` succeeds. -/
def ResponseWriter.fresh : ResponseWriter := ⟨[], [], none⟩

/-- A response writer nothing has been written to, whose `Write` fails with
`e`. -/
def ResponseWriter.failing (e : GoError) : ResponseWriter := ⟨[], [], some e⟩

/-- Method `WriteHeader(statusCode)`. -/
def ResponseWriter.WriteHeader (w : ResponseWriter) (s : Nat) : ResponseWriter :=
  { w with headerCalls := w.headerCalls ++ [s] }

/-- Go `json.NewEncoder(w).Encode(v)`: marshal `v`; on a marshalling error
return it without writing; otherwise write the document with one `Write`. -/
def Encode (w : ResponseWriter) (v : Payload) : Option GoError × ResponseWriter :=
  match jsonMarshal v with
  | .error e => (some e, w)
  | .ok doc =>
    match w.writeErr with
    | some e => (some e, w)
    | none => (none, { w with body := w.body ++ [doc] })

/-- Go `http.StatusOK`. -/
def StatusOK : Nat := 200

/-- Go `http.StatusBadRequest`. -/
def StatusBadRequest : Nat := 400

/-- Function `writeJSON`. -/
def writeJSON (w : ResponseWriter) (s : Nat) (v : Payload) : Option GoError × ResponseWriter :=
  let w1 := w.WriteHeader s
  Encode w1 v

/-! ## net/url: the query of a request -/

/-- Go `strings.Cut(s, sep)` for a one-byte separator: the text before the
first `sep` and the text after it (empty when there is no `sep`). -/
def cut (sep : Char) : List Char → List Char × List Char
  | [] => ([], [])
  | c :: cs => if c = sep then ([], cs) else ((cut sep cs).1.cons c, (cut sep cs).2)

/-- The pieces of `s` between occurrences of `sep`. -/
def splitOn (sep : Char) : List Char → List (List Char)
  | [] => [[]]
  | c :: cs =>
    if c = sep then [] :: splitOn sep cs
    else
      match splitOn sep cs with
      | [] => [[c]]
      | p :: ps => (c :: p) :: ps

/-- Function `ishex` of `net/url`. -/
def ishex (c : Char) : Bool :=
  ('0' ≤ c && c ≤ '9') || ('a' ≤ c && c ≤ 'f') || ('A' ≤ c && c ≤ 'F')

/-- Function `unhex` of `net/url`. -/
def unhex (c : Char) : Nat :=
  if '0' ≤ c && c ≤ '9' then c.toNat - '0'.toNat
  else if 'a' ≤ c && c ≤ 'f' then c.toNat - 'a'.toNat + 10
  else if 'A' ≤ c && c ≤ 'F' then c.toNat - 'A'.toNat + 10
  else 0

/-- Go `url.QueryUnescape`: `%XY` becomes the byte `0xXY`, `+` becomes a space;
a `%` not followed by two hex digits is an error (`none`). -/
def QueryUnescape : List Char → Option (List Char)
  | [] => some []
  | c :: cs =>
    if c = '%' then
      match cs with
      | a :: b :: rest =>
        if ishex a && ishex b then
          (QueryUnescape rest).map (List.cons (Char.ofNat (unhex a * 16 + unhex b)))
        else none
      | _ => none
    else if c = '+' then (QueryUnescape cs).map (List.cons ' ')
    else (QueryUnescape cs).map (List.cons c)

/-- One turn of the loop of `parseQuery` on the piece `key` cut off at `&`:
pieces holding a `;`, empty pieces and pieces with a bad escape add nothing. -/
def parsePair (piece : List Char) : Option (String × String) :=
  if piece.contains ';' then none
  else if piece = [] then none
  else
    match QueryUnescape (cut '=' piece).1, QueryUnescape (cut '=' piece).2 with
    | some k, some v => some (String.mk k, String.mk v)
    | _, _ => none

/-- Go `url.Values`, as the key/value pairs in the order `parseQuery` adds
them. -/
abbrev Values := List (String × String)

/-- Go `url.ParseQuery`, its error dropped as `URL.Query` does. -/
def ParseQuery (query : String) : Values :=
  (splitOn '&' query.data).filterMap parsePair

/-- Method `Values.Get`: the first value under `key`, or the empty string. -/
def Values.Get (v : Values) (key : String) : String :=
  (v.lookup key).getD ""

/-- The part of `url.URL` the handler reads. -/
structure URL where
  Path : String
  RawQuery : String
  deriving DecidableEq

/-- Method `(*URL).Query`. -/
def URL.Query (u : URL) : Values := ParseQuery u.RawQuery

/-- An `http.Request`. -/
structure Request where
  Method : String
  URL : URL
  deriving DecidableEq

/-! ## json_api.go -/

/-- Type `APIFunc`. -/
abbrev APIFunc :=
  Context → ResponseWriter → Request → World → Option GoError × ResponseWriter × World

/-- Type `http.HandlerFunc`. -/
abbrev HandlerFunc := ResponseWriter → Request → World → ResponseWriter × World

/-- Struct `JSONAPIServer`. -/
structure JSONAPIServer where
  listenAddr : String
  svc : PriceService

/-- Function `NewJSONAPIServer`. -/
def NewJSONAPIServer (listenAddr : String) (svc : PriceService) : JSONAPIServer :=
  { listenAddr := listenAddr, svc := svc }

/-- Method `(*JSONAPIServer).handleFetchPrice`. -/
def JSONAPIServer.handleFetchPrice (s : JSONAPIServer) : APIFunc :=
  fun ctx w r world =>
    let ticker := r.URL.Query.Get "ticker"
    match s.svc.FetchPrice ctx ticker world with
    | ((_, some err), world1) => (some err, w, world1)
    | ((price, none), world1) =>
      let priceResp : PriceResponse := { Price := price, Ticker := ticker }
      let (e, w1) := writeJSON w StatusOK (.priceResp priceResp)
      (e, w1, world1)

/-- The global source of `math/rand`: the sequence of its raw outputs and the
number of draws made so far. -/
structure Rand where
  seq : Nat → Nat
  pos : Nat

/-- Go `rand.Intn(n)`. -/
def Rand.Intn (g : Rand) (n : Nat) : Nat × Rand :=
  (g.seq g.pos % n, { g with pos := g.pos + 1 })

/-- Function `makeHTTPHandlerFunc`: the context and its `requestID` are built
in the body of `makeHTTPHandlerFunc`; the closure it returns captures them. -/
def makeHTTPHandlerFunc (apiFn : APIFunc) (g : Rand) : HandlerFunc × Rand :=
  let ctx := Context.Background
  let (id, g1) := g.Intn 100000000
  let ctx := ctx.WithValue "requestID" id
  (fun w r world =>
    match apiFn ctx w r world with
    | (some err, w1, world1) => ((writeJSON w1 StatusBadRequest (.errorMap err.Error)).2, world1)
    | (none, w1, world1) => (w1, world1),
   g1)

/-! ## client/client.go -/

/-- Struct `Client`. -/
structure Client where
  endpoint : String

/-- Function `New` of package `client`. -/
def Client.New (endpoint : String) : Client := { endpoint := endpoint }

/-- The URL `Client.FetchPrice` requests:
`fmt.Sprintf("%s?ticker=%s", c.endpoint, ticker)`. -/
def Client.requestURL (c : Client) (ticker : String) : String :=
  c.endpoint ++ "?ticker=" ++ ticker

/-- The `RawQuery` that `url.Parse` gives a URL and that the server reads back
from the request line: the text after the first `?` of what precedes the first
`#`. -/
def rawQueryOf (rawURL : String) : String :=
  String.mk (cut '?' (cut '#' rawURL.data).1).2

/-- A random source whose successive draws are 7, 8, 9, ... -/
def Rand.counting : Rand := ⟨fun i => i + 7, 0⟩

/-- The request `GET /?<query>`. -/
def Request.get (query : String) : Request := ⟨"GET", ⟨"/", query⟩⟩

/-- The context built by `makeHTTPHandlerFunc` from the random source `g`. -/
def handlerContext (g : Rand) : Context :=
  Context.Background.WithValue "requestID" (g.Intn 100000000).1

/-- A `PriceService` that quotes the price `p` for every ticker. -/
def constService (p : Float64) : PriceService :=
  ⟨fun _ _ w => ((p, none), w)⟩

/-! ## The provider `priceService` -/

theorem lookup_of_mem (T : String) (p : Float64) (h : (T, p) ∈ priceMocks) :
    priceMocks.lookup T = some p := by
  simp only [priceMocks, List.mem_cons, Prod.mk.injEq, List.mem_singleton, List.not_mem_nil,
    or_false] at h
  rcases h with ⟨rfl, rfl⟩ | ⟨rfl, rfl⟩ | ⟨rfl, rfl⟩ <;> decide

theorem lookup_of_not_key (T : String) (h : T ∉ priceMocks.map Prod.fst) :
    priceMocks.lookup T = none := by
  simp only [priceMocks, List.map_cons, List.map_nil, List.mem_cons, List.mem_singleton,
    List.not_mem_nil, or_false, not_or] at h
  obtain ⟨h1, h2, h3⟩ := h
  have e1 : (T == "BTC") = false := beq_eq_false_iff_ne.mpr h1
  have e2 : (T == "ETH") = false := beq_eq_false_iff_ne.mpr h2
  have e3 : (T == "SAI") = false := beq_eq_false_iff_ne.mpr h3
  simp only [priceMocks, List.lookup, e1, e2, e3]

/-- C1: for every ticker `T` that is a key of `priceMocks` with configured price
`p`, and every context, `priceService.FetchPrice` returns `p` and a nil error;
the configured pairs are BTC -> 20000, ETH -> 2000, SAI -> 10000. -/
theorem priceService_FetchPrice_known (ctx : Context) (T : String) (p : Float64) (w : World)
    (h : (T, p) ∈ priceMocks) :
    (priceService.FetchPrice ctx T w).1 = (p, none) ∧
      ((T, p) = ("BTC", .finite 20000) ∨ (T, p) = ("ETH", .finite 2000) ∨
        (T, p) = ("SAI", .finite 10000)) := by
  refine ⟨?_, ?_⟩
  · simp [priceService.FetchPrice, lookup_of_mem T p h]
  · simpa [priceMocks] using h

theorem priceService_FetchPrice_known_witness :
    (("BTC", Float64.finite 20000) ∈ priceMocks) ∧
      (priceService.FetchPrice Context.Background "BTC" ⟨0, []⟩).1 = (.finite 20000, none) :=
  ⟨by decide,
    (priceService_FetchPrice_known Context.Background "BTC" (.finite 20000) ⟨0, []⟩
      (by decide)).1⟩

/-- C2: for every string `T` that is not exactly one of the keys of `priceMocks`
(so also the empty string and lower-case spellings), and every context,
`priceService.FetchPrice` returns the zero price and a non-nil error whose
message is "the given ticker (T) is not supported", which contains `T`. -/
theorem priceService_FetchPrice_unknown (ctx : Context) (T : String) (w : World)
    (h : T ∉ priceMocks.map Prod.fst) :
    ∃ e : GoError,
      (priceService.FetchPrice ctx T w).1 = (Float64.zero, some e) ∧
        e.Error = "the given ticker (" ++ T ++ ") is not supported" ∧
        ∃ before after : String, e.Error = before ++ T ++ after := by
  refine ⟨unsupportedTicker T, ?_, rfl, "the given ticker (", ") is not supported", rfl⟩
  simp [priceService.FetchPrice, lookup_of_not_key T h]

theorem priceService_FetchPrice_unknown_witness :
    ("btc" ∉ priceMocks.map Prod.fst ∧ "" ∉ priceMocks.map Prod.fst) ∧
      (∃ e : GoError,
        (priceService.FetchPrice Context.Background "btc" ⟨0, []⟩).1 = (Float64.zero, some e) ∧
          e.Error = "the given ticker (" ++ "btc" ++ ") is not supported" ∧
          ∃ before after : String, e.Error = before ++ "btc" ++ after) ∧
      (∃ e : GoError,
        (priceService.FetchPrice Context.Background "" ⟨0, []⟩).1 = (Float64.zero, some e) ∧
          e.Error = "the given ticker (" ++ "" ++ ") is not supported" ∧
          ∃ before after : String, e.Error = before ++ "" ++ after) :=
  ⟨⟨by decide, by decide⟩,
    priceService_FetchPrice_unknown Context.Background "btc" ⟨0, []⟩ (by decide),
    priceService_FetchPrice_unknown Context.Background "" ⟨0, []⟩ (by decide)⟩

/-! ## The decorator `loggingService` -/

theorem loggingService_FetchPrice_eq (ctx : Context) (ticker : String) (w : World) :
    loggingService.FetchPrice ctx ticker w =
      ((priceService.FetchPrice ctx ticker w).1,
        (priceService.FetchPrice ctx ticker w).2.Info
          { requestID := ctx.Value "requestID"
            took := (priceService.FetchPrice ctx ticker w).2.Since w.Now
            err := (priceService.FetchPrice ctx ticker w).1.2
            price := (priceService.FetchPrice ctx ticker w).1.1
            message := "fetchPrice" }) := rfl

theorem priceService_FetchPrice_world (ctx : Context) (ticker : String) (w : World) :
    (priceService.FetchPrice ctx ticker w).2 = w.Sleep 100 := by
  unfold priceService.FetchPrice
  cases priceMocks.lookup ticker <;> rfl

/-- C3: decorator transparency. For every context and every ticker,
`loggingService.FetchPrice` returns the same (price, error) pair as the wrapped
`priceService.FetchPrice` called with the same arguments. -/
theorem loggingService_FetchPrice_transparent (ctx : Context) (ticker : String) (w : World) :
    (loggingService.FetchPrice ctx ticker w).1 = (priceService.FetchPrice ctx ticker w).1 := by
  rw [loggingService_FetchPrice_eq]

/-- C4: every call of `loggingService.FetchPrice`, successful or not, appends
exactly one record to the log; its `price` and `err` fields are the price and
error returned to the caller, its `requestID` field is the value stored in the
context under "requestID"; on failure the record carries the zero price. -/
theorem loggingService_FetchPrice_logs_once (ctx : Context) (ticker : String) (w : World) :
    ∃ r : LogRecord,
      (loggingService.FetchPrice ctx ticker w).2.log = w.log ++ [r] ∧
        r.price = (loggingService.FetchPrice ctx ticker w).1.1 ∧
        r.err = (loggingService.FetchPrice ctx ticker w).1.2 ∧
        r.requestID = ctx.Value "requestID" ∧
        (r.err ≠ none → r.price = Float64.zero) := by
  refine ⟨{ requestID := ctx.Value "requestID"
            took := (priceService.FetchPrice ctx ticker w).2.Since w.Now
            err := (priceService.FetchPrice ctx ticker w).1.2
            price := (priceService.FetchPrice ctx ticker w).1.1
            message := "fetchPrice" }, ?_, rfl, rfl, rfl, ?_⟩
  · rw [loggingService_FetchPrice_eq]
    simp only [World.Info, priceService_FetchPrice_world, World.Sleep]
  · simp only [priceService.FetchPrice]
    cases priceMocks.lookup ticker <;> simp

/-! ## The HTTP adapter -/

theorem makeHTTPHandlerFunc_apply (apiFn : APIFunc) (g : Rand) (w : ResponseWriter)
    (r : Request) (world : World) :
    (makeHTTPHandlerFunc apiFn g).1 w r world =
      match apiFn (handlerContext g) w r world with
      | (some err, w1, world1) =>
        ((writeJSON w1 StatusBadRequest (.errorMap err.Error)).2, world1)
      | (none, w1, world1) => (w1, world1) := rfl

theorem handleFetchPrice_err (s : JSONAPIServer) (ctx : Context) (w : ResponseWriter)
    (r : Request) (world world1 : World) (p : Float64) (e : GoError)
    (h : s.svc.FetchPrice ctx (r.URL.Query.Get "ticker") world = ((p, some e), world1)) :
    s.handleFetchPrice ctx w r world = (some e, w, world1) := by
  simp only [JSONAPIServer.handleFetchPrice]
  rw [h]

theorem handleFetchPrice_ok (s : JSONAPIServer) (ctx : Context) (w : ResponseWriter)
    (r : Request) (world world1 : World) (p : Float64)
    (h : s.svc.FetchPrice ctx (r.URL.Query.Get "ticker") world = ((p, none), world1)) :
    s.handleFetchPrice ctx w r world =
      ((writeJSON w StatusOK (.priceResp ⟨r.URL.Query.Get "ticker", p⟩)).1,
        (writeJSON w StatusOK (.priceResp ⟨r.URL.Query.Get "ticker", p⟩)).2, world1) := by
  simp only [JSONAPIServer.handleFetchPrice]
  rw [h]

theorem coerceUTF8_of_valid (l : List Char) :
    ∀ k : Nat, validUTF8From k l = true → coerceUTF8 k l = l := by
  induction l with
  | nil => intro k _; cases k <;> rfl
  | cons b rest ih =>
    intro k h
    cases k with
    | succ k =>
      simp only [validUTF8From] at h
      simp only [coerceUTF8, ih k h]
    | zero =>
      simp only [validUTF8From] at h
      simp only [coerceUTF8]
      cases hw : utf8Width b rest with
      | none => rw [hw] at h; exact absurd h (by simp)
      | some n =>
        rw [hw] at h
        simp only [ih (n - 1) h]

theorem jsonString_of_valid (s : String) (h : ValidString s = true) : jsonString s = s := by
  simp only [jsonString, coerceUTF8_of_valid s.data 0 h]

theorem jsonString_known (T : String) (p : Float64) (h : (T, p) ∈ priceMocks) :
    jsonString T = T := by
  simp only [priceMocks, List.mem_cons, Prod.mk.injEq, List.mem_singleton, List.not_mem_nil,
    or_false] at h
  rcases h with ⟨rfl, rfl⟩ | ⟨rfl, rfl⟩ | ⟨rfl, rfl⟩ <;> decide

theorem writeJSON_errorMap (w : ResponseWriter) (s : Nat) (msg : String) :
    (writeJSON w s (.errorMap msg)).2 =
      { w with
        headerCalls := w.headerCalls ++ [s]
        body :=
          if w.writeErr = none then w.body ++ [[("error", .str (jsonString msg))]]
          else w.body } := by
  cases w with
  | mk hc b we =>
    cases we <;> simp [writeJSON, Encode, jsonMarshal, ResponseWriter.WriteHeader]

theorem writeJSON_priceResp_finite (w : ResponseWriter) (s : Nat) (T : String) (q : ℚ)
    (hw : w.writeErr = none) :
    writeJSON w s (.priceResp ⟨T, .finite q⟩) =
      (none, { w with
        headerCalls := w.headerCalls ++ [s]
        body := w.body ++ [[("ticker", .str (jsonString T)), ("price", .num q)]] }) := by
  cases w with
  | mk hc b we =>
    simp only at hw
    subst hw
    simp [writeJSON, Encode, jsonMarshal, ResponseWriter.WriteHeader]

theorem main_svc_known (ctx : Context) (T : String) (p : Float64) (world : World)
    (h : (T, p) ∈ priceMocks) :
    main.svc.FetchPrice ctx T world =
      ((p, none),
        { clock := world.clock + 100
          log := world.log ++ [⟨ctx.Value "requestID", 100, none, p, "fetchPrice"⟩] }) := by
  simp [main.svc, loggingService_FetchPrice_eq, priceService.FetchPrice, lookup_of_mem T p h,
    World.Info, World.Sleep, World.Since, World.Now]

theorem main_svc_unknown (ctx : Context) (T : String) (world : World)
    (h : T ∉ priceMocks.map Prod.fst) :
    main.svc.FetchPrice ctx T world =
      ((Float64.zero, some (unsupportedTicker T)),
        { clock := world.clock + 100
          log := world.log ++
            [⟨ctx.Value "requestID", 100, some (unsupportedTicker T), Float64.zero,
              "fetchPrice"⟩] }) := by
  simp [main.svc, loggingService_FetchPrice_eq, priceService.FetchPrice, lookup_of_not_key T h,
    World.Info, World.Sleep, World.Since, World.Now]

/-- C5: for every request whose `ticker` query parameter is a known ticker `T`
with configured price `q`, the handler `makeHTTPHandlerFunc(handleFetchPrice)`
over the reference service, writing to a response writer whose writes succeed,
makes the single status write 200 and writes the one body document
`{"ticker": T, "price": q}`; for `GET /?ticker=BTC` the status is 200 and the
body is `{"ticker":"BTC","price":20000}`. -/
theorem handler_known_ticker (addr : String) (g : Rand) (w : ResponseWriter) (r : Request)
    (world : World) (T : String) (q : ℚ)
    (hT : (T, Float64.finite q) ∈ priceMocks) (hr : r.URL.Query.Get "ticker" = T)
    (hw : w.writeErr = none) :
    ((makeHTTPHandlerFunc (NewJSONAPIServer addr main.svc).handleFetchPrice g).1 w r world).1 =
        { w with
          headerCalls := w.headerCalls ++ [200]
          body := w.body ++ [[("ticker", .str T), ("price", .num q)]] } ∧
      ((makeHTTPHandlerFunc (NewJSONAPIServer addr main.svc).handleFetchPrice g).1
          ResponseWriter.fresh (Request.get "ticker=BTC") world).1 =
        ⟨[200], [[("ticker", .str "BTC"), ("price", .num 20000)]], none⟩ := by
  have key : ∀ (w : ResponseWriter) (r : Request) (T : String) (q : ℚ),
      (T, Float64.finite q) ∈ priceMocks → r.URL.Query.Get "ticker" = T → w.writeErr = none →
      ((makeHTTPHandlerFunc (NewJSONAPIServer addr main.svc).handleFetchPrice g).1 w r world).1 =
        { w with
          headerCalls := w.headerCalls ++ [200]
          body := w.body ++ [[("ticker", .str T), ("price", .num q)]] } := by
    intro w r T q hT hr hw
    rw [makeHTTPHandlerFunc_apply,
      handleFetchPrice_ok (NewJSONAPIServer addr main.svc) (handlerContext g) w r world _
        (.finite q) (by rw [hr]; exact main_svc_known _ T _ world hT),
      hr, writeJSON_priceResp_finite w StatusOK T q hw, jsonString_known T _ hT]
    rfl
  exact ⟨key w r T q hT hr hw,
    key ResponseWriter.fresh (Request.get "ticker=BTC") "BTC" 20000 (by decide) (by decide) rfl⟩

theorem handler_known_ticker_witness :
    (("ETH", Float64.finite 2000) ∈ priceMocks ∧
      (Request.get "ticker=ETH").URL.Query.Get "ticker" = "ETH" ∧
      ResponseWriter.fresh.writeErr = none) ∧
    ((makeHTTPHandlerFunc (NewJSONAPIServer ":3000" main.svc).handleFetchPrice Rand.counting).1
        ResponseWriter.fresh (Request.get "ticker=ETH") ⟨0, []⟩).1 =
      ⟨[200], [[("ticker", .str "ETH"), ("price", .num 2000)]], none⟩ :=
  ⟨⟨by decide, by decide, rfl⟩,
    (handler_known_ticker ":3000" Rand.counting ResponseWriter.fresh (Request.get "ticker=ETH")
      ⟨0, []⟩ "ETH" 2000 (by decide) (by decide) rfl).1⟩

/-- C6, as stated, fails: for `GET /?ticker=%ff` the reference service returns
the error `e` with `e.Error()` = "the given ticker (\xff) is not supported",
whose byte 0xFF is not valid UTF-8; the handler answers 400, and the `error`
field of the body it writes holds U+FFFD (bytes EF BF BD) in the place of that
byte, so the body is not `{"error": e.Error()}`. -/
theorem handler_error_body_coerced :
    (main.svc.FetchPrice (handlerContext Rand.counting)
        ((Request.get "ticker=%ff").URL.Query.Get "ticker") ⟨0, []⟩).1 =
      (Float64.zero, some ⟨"the given ticker (\xff) is not supported"⟩) ∧
      ((makeHTTPHandlerFunc (NewJSONAPIServer ":3000" main.svc).handleFetchPrice Rand.counting).1
          ResponseWriter.fresh (Request.get "ticker=%ff") ⟨0, []⟩).1 =
        ⟨[400], [[("error", .str "the given ticker (\xef\xbf\xbd) is not supported")]], none⟩ ∧
      ((makeHTTPHandlerFunc (NewJSONAPIServer ":3000" main.svc).handleFetchPrice Rand.counting).1
          ResponseWriter.fresh (Request.get "ticker=%ff") ⟨0, []⟩).1.body ≠
        [[("error", .str (GoError.Error ⟨"the given ticker (\xff) is not supported"⟩))]] := by
  refine ⟨by decide, by decide, by decide⟩

/-- C6, amended: for every `PriceService` and every request for which its
`FetchPrice` returns an error `e`, the handler makes the single status write
400, writes the one body document `{"error": m}` (nothing when the write fails)
and no ticker/price document, and keeps the world the service left. Here `m` is
`e.Error()` as `encoding/json` writes a string, invalid UTF-8 bytes replaced by
U+FFFD; `m` is `e.Error()` itself whenever that is valid UTF-8. `GET
/?ticker=DOGE` against the reference service yields status 400 with the message
"the given ticker (DOGE) is not supported". -/
theorem handler_service_error (addr : String) (svc : PriceService) (g : Rand)
    (w : ResponseWriter) (r : Request) (world world1 : World) (p : Float64) (e : GoError)
    (h : svc.FetchPrice (handlerContext g) (r.URL.Query.Get "ticker") world =
      ((p, some e), world1)) :
    (makeHTTPHandlerFunc (NewJSONAPIServer addr svc).handleFetchPrice g).1 w r world =
        ({ w with
            headerCalls := w.headerCalls ++ [400]
            body :=
              if w.writeErr = none then w.body ++ [[("error", .str (jsonString e.Error))]]
              else w.body },
          world1) ∧
      (ValidString e.Error = true → jsonString e.Error = e.Error) ∧
      ((makeHTTPHandlerFunc (NewJSONAPIServer addr main.svc).handleFetchPrice g).1
          ResponseWriter.fresh (Request.get "ticker=DOGE") world).1 =
        ⟨[400], [[("error", .str "the given ticker (DOGE) is not supported")]], none⟩ := by
  have key : ∀ (svc : PriceService) (w : ResponseWriter) (r : Request) (world1 : World)
      (p : Float64) (e : GoError),
      svc.FetchPrice (handlerContext g) (r.URL.Query.Get "ticker") world =
        ((p, some e), world1) →
      (makeHTTPHandlerFunc (NewJSONAPIServer addr svc).handleFetchPrice g).1 w r world =
        ({ w with
            headerCalls := w.headerCalls ++ [400]
            body :=
              if w.writeErr = none then w.body ++ [[("error", .str (jsonString e.Error))]]
              else w.body },
          world1) := by
    intro svc w r world1 p e h
    rw [makeHTTPHandlerFunc_apply,
      handleFetchPrice_err (NewJSONAPIServer addr svc) (handlerContext g) w r world world1 p e h]
    simp only [writeJSON_errorMap, StatusBadRequest]
  refine ⟨key svc w r world1 p e h, jsonString_of_valid e.Error, ?_⟩
  have hd : (Request.get "ticker=DOGE").URL.Query.Get "ticker" = "DOGE" := by decide
  have hj : jsonString (unsupportedTicker "DOGE").Error =
      "the given ticker (DOGE) is not supported" := by decide
  rw [key main.svc ResponseWriter.fresh (Request.get "ticker=DOGE") _ _ _
    (by rw [hd]; exact main_svc_unknown _ "DOGE" world (by decide)), hj]
  rfl

theorem handler_service_error_witness :
    (main.svc.FetchPrice (handlerContext Rand.counting)
        ((Request.get "ticker=DOGE").URL.Query.Get "ticker") ⟨0, []⟩ =
      ((Float64.zero, some ⟨"the given ticker (DOGE) is not supported"⟩),
        ⟨100, [⟨some 7, 100, some ⟨"the given ticker (DOGE) is not supported"⟩, Float64.zero,
          "fetchPrice"⟩]⟩)) ∧
    (makeHTTPHandlerFunc (NewJSONAPIServer ":3000" main.svc).handleFetchPrice Rand.counting).1
        (ResponseWriter.failing ⟨"broken pipe"⟩) (Request.get "ticker=DOGE") ⟨0, []⟩ =
      (⟨[400], [], some ⟨"broken pipe"⟩⟩,
        ⟨100, [⟨some 7, 100, some ⟨"the given ticker (DOGE) is not supported"⟩, Float64.zero,
          "fetchPrice"⟩]⟩) :=
  ⟨by decide,
    (handler_service_error ":3000" main.svc Rand.counting (ResponseWriter.failing ⟨"broken pipe"⟩)
      (Request.get "ticker=DOGE") ⟨0, []⟩
      ⟨100, [⟨some 7, 100, some ⟨"the given ticker (DOGE) is not supported"⟩, Float64.zero,
        "fetchPrice"⟩]⟩
      Float64.zero ⟨"the given ticker (DOGE) is not supported"⟩ (by decide)).1⟩

theorem handler_world (addr : String) (svc : PriceService) (g : Rand) (w : ResponseWriter)
    (r : Request) (world : World) :
    ((makeHTTPHandlerFunc (NewJSONAPIServer addr svc).handleFetchPrice g).1 w r world).2 =
      (svc.FetchPrice (handlerContext g) (r.URL.Query.Get "ticker") world).2 := by
  rw [makeHTTPHandlerFunc_apply]
  rcases hres : svc.FetchPrice (handlerContext g) (r.URL.Query.Get "ticker") world with
    ⟨⟨p, _ | e⟩, world1⟩
  · rw [handleFetchPrice_ok (NewJSONAPIServer addr svc) (handlerContext g) w r world world1 p hres]
    generalize (writeJSON w StatusOK (.priceResp ⟨r.URL.Query.Get "ticker", p⟩)).1 = e
    cases e <;> rfl
  · rw [handleFetchPrice_err (NewJSONAPIServer addr svc) (handlerContext g) w r world world1 p e
      hres]

theorem handlerContext_requestID (g : Rand) :
    (handlerContext g).Value "requestID" = some (g.seq g.pos % 100000000) := by
  simp [handlerContext, Context.WithValue, Context.Value, Rand.Intn, List.lookup]

/-- C7, as stated, fails: handling `GET /` (no `ticker` parameter) with the
reference service leaves a log record that only `FetchPrice`, called with the
empty ticker, produces, so the service is invoked; and over a service that
quotes every ticker the same request is answered with status 200. -/
theorem handler_empty_ticker_calls_service :
    (Request.get "").URL.Query.Get "ticker" = "" ∧
      (makeHTTPHandlerFunc (NewJSONAPIServer ":3000" main.svc).handleFetchPrice Rand.counting).1
          ResponseWriter.fresh (Request.get "") ⟨0, []⟩ =
        (⟨[400], [[("error", .str "the given ticker () is not supported")]], none⟩,
          ⟨100, [⟨some 7, 100, some ⟨"the given ticker () is not supported"⟩, Float64.zero,
            "fetchPrice"⟩]⟩) ∧
      ((makeHTTPHandlerFunc (NewJSONAPIServer ":3000" (constService (.finite 1))).handleFetchPrice
          Rand.counting).1 ResponseWriter.fresh (Request.get "") ⟨0, []⟩).1 =
        ⟨[200], [[("ticker", .str ""), ("price", .num 1)]], none⟩ := by
  refine ⟨by decide, by decide, by decide⟩

/-- C7, amended: for every request whose `ticker` query parameter is missing or
empty there is no decode-failure path: the handler calls the `FetchPrice` of
the service with the empty ticker, keeps the world that call leaves, and answers
from the result of the call as for any other ticker. If the call returns an
error `e`, the single status write is 400 and the body is `{"error": e.Error()}`
(as `encoding/json` writes it); if it returns a finite price `q`, the single
status write is 200 and the body is `{"ticker": "", "price": q}`; when the
success body cannot be written (the `Write` fails, or the price is `NaN` or
infinite) status 200 is followed by the status write 400. With the reference
service the call fails with "the given ticker () is not supported" and is
logged as one record, and the handler makes the single status write 400 and
writes the body `{"error": "the given ticker () is not supported"}`. -/
theorem handler_empty_ticker (addr : String) (svc : PriceService) (g : Rand)
    (w : ResponseWriter) (r : Request) (world : World)
    (hr : r.URL.Query.Get "ticker" = "") :
    (makeHTTPHandlerFunc (NewJSONAPIServer addr svc).handleFetchPrice g).1 w r world =
        (match svc.FetchPrice (handlerContext g) "" world with
        | ((_, some e), world1) =>
          ({ w with
              headerCalls := w.headerCalls ++ [400]
              body :=
                if w.writeErr = none then w.body ++ [[("error", .str (jsonString e.Error))]]
                else w.body },
            world1)
        | ((.finite q, none), world1) =>
          (if w.writeErr = none then
              { w with
                headerCalls := w.headerCalls ++ [200]
                body := w.body ++ [[("ticker", .str ""), ("price", .num q)]] }
            else { w with headerCalls := w.headerCalls ++ [200, 400] },
            world1)
        | ((.nan, none), world1) =>
          ({ w with
              headerCalls := w.headerCalls ++ [200, 400]
              body :=
                if w.writeErr = none then
                  w.body ++ [[("error", .str "json: unsupported value: NaN")]]
                else w.body },
            world1)
        | ((.posInf, none), world1) =>
          ({ w with
              headerCalls := w.headerCalls ++ [200, 400]
              body :=
                if w.writeErr = none then
                  w.body ++ [[("error", .str "json: unsupported value: +Inf")]]
                else w.body },
            world1)
        | ((.negInf, none), world1) =>
          ({ w with
              headerCalls := w.headerCalls ++ [200, 400]
              body :=
                if w.writeErr = none then
                  w.body ++ [[("error", .str "json: unsupported value: -Inf")]]
                else w.body },
            world1)) ∧
      (makeHTTPHandlerFunc (NewJSONAPIServer addr main.svc).handleFetchPrice g).1 w r world =
        ({ w with
            headerCalls := w.headerCalls ++ [400]
            body :=
              if w.writeErr = none then
                w.body ++ [[("error", .str "the given ticker () is not supported")]]
              else w.body },
          { clock := world.clock + 100
            log := world.log ++
              [⟨some (g.seq g.pos % 100000000), 100,
                some ⟨"the given ticker () is not supported"⟩, Float64.zero, "fetchPrice"⟩] }) := by
  have h0 : jsonString "" = "" := by decide
  have h1 : jsonString "json: unsupported value: NaN" = "json: unsupported value: NaN" := by
    decide
  have h2 : jsonString "json: unsupported value: +Inf" = "json: unsupported value: +Inf" := by
    decide
  have h3 : jsonString "json: unsupported value: -Inf" = "json: unsupported value: -Inf" := by
    decide
  have h4 : jsonString (unsupportedTicker "").Error = "the given ticker () is not supported" := by
    decide
  constructor
  · rw [makeHTTPHandlerFunc_apply]
    simp only [JSONAPIServer.handleFetchPrice, NewJSONAPIServer, hr]
    rcases svc.FetchPrice (handlerContext g) "" world with ⟨⟨p, _ | e⟩, world1⟩
    · rcases w with ⟨hc, b, _ | we⟩ <;> cases p <;>
        simp [writeJSON, Encode, jsonMarshal, ResponseWriter.WriteHeader, StatusOK,
          StatusBadRequest, GoError.Error, h0, h1, h2, h3]
    · simp only [writeJSON_errorMap, StatusBadRequest]
  · rw [makeHTTPHandlerFunc_apply,
      handleFetchPrice_err (NewJSONAPIServer addr main.svc) (handlerContext g) w r world _ _ _
        (by rw [hr]; exact main_svc_unknown _ "" world (by decide)),
      handlerContext_requestID]
    simp only [writeJSON_errorMap, StatusBadRequest, h4]
    rfl

theorem handler_empty_ticker_witness :
    (Request.get "ticker=").URL.Query.Get "ticker" = "" ∧
      (makeHTTPHandlerFunc (NewJSONAPIServer ":3000" main.svc).handleFetchPrice Rand.counting).1
          ResponseWriter.fresh (Request.get "ticker=") ⟨5, []⟩ =
        (⟨[400], [[("error", .str "the given ticker () is not supported")]], none⟩,
          ⟨105, [⟨some 7, 100, some ⟨"the given ticker () is not supported"⟩, Float64.zero,
            "fetchPrice"⟩]⟩) ∧
      (makeHTTPHandlerFunc (NewJSONAPIServer ":3000" (constService (.finite 3))).handleFetchPrice
          Rand.counting).1 ResponseWriter.fresh (Request.get "ticker=") ⟨5, []⟩ =
        (⟨[200], [[("ticker", .str ""), ("price", .num 3)]], none⟩, ⟨5, []⟩) :=
  ⟨by decide,
    (handler_empty_ticker ":3000" main.svc Rand.counting ResponseWriter.fresh
      (Request.get "ticker=") ⟨5, []⟩ (by decide)).2,
    (handler_empty_ticker ":3000" (constService (.finite 3)) Rand.counting ResponseWriter.fresh
      (Request.get "ticker=") ⟨5, []⟩ (by decide)).1⟩

/-- C8, on the code: `makeHTTPHandlerFunc` draws from the random source once,
when the handler is built; any two requests served by that handler reach
`FetchPrice` with the same `requestID`, so both log records carry the same id.
For the draws 7, 8, ... the requests `GET /?ticker=BTC` and `GET /?ticker=ETH`
are both logged with id 7. -/
theorem makeHTTPHandlerFunc_requestID_shared (addr : String) (g : Rand)
    (wa wb : ResponseWriter) (ra rb : Request) (world : World) :
    (makeHTTPHandlerFunc (NewJSONAPIServer addr main.svc).handleFetchPrice g).2.pos = g.pos + 1 ∧
      (∃ a b : LogRecord,
        ((makeHTTPHandlerFunc (NewJSONAPIServer addr main.svc).handleFetchPrice g).1 wb rb
            ((makeHTTPHandlerFunc (NewJSONAPIServer addr main.svc).handleFetchPrice g).1
              wa ra world).2).2.log = world.log ++ [a, b] ∧
          a.requestID = some (g.seq g.pos % 100000000) ∧
          b.requestID = some (g.seq g.pos % 100000000)) ∧
      ((makeHTTPHandlerFunc (NewJSONAPIServer ":3000" main.svc).handleFetchPrice Rand.counting).1
          ResponseWriter.fresh (Request.get "ticker=ETH")
          ((makeHTTPHandlerFunc (NewJSONAPIServer ":3000" main.svc).handleFetchPrice
            Rand.counting).1 ResponseWriter.fresh (Request.get "ticker=BTC") ⟨0, []⟩).2).2.log =
        [⟨some 7, 100, none, .finite 20000, "fetchPrice"⟩,
          ⟨some 7, 100, none, .finite 2000, "fetchPrice"⟩] := by
  refine ⟨rfl, ?_, by decide⟩
  have step : ∀ (w : ResponseWriter) (r : Request) (world : World),
      ∃ a : LogRecord,
        ((makeHTTPHandlerFunc (NewJSONAPIServer addr main.svc).handleFetchPrice g).1
            w r world).2.log = world.log ++ [a] ∧
          a.requestID = some (g.seq g.pos % 100000000) := by
    intro w r world
    rw [handler_world]
    simp only [main.svc, loggingService_FetchPrice_eq, priceService_FetchPrice_world,
      handlerContext_requestID]
    exact ⟨_, rfl, rfl⟩
  obtain ⟨a, ha, hida⟩ := step wa ra world
  obtain ⟨b, hb, hidb⟩ := step wb rb
    ((makeHTTPHandlerFunc (NewJSONAPIServer addr main.svc).handleFetchPrice g).1 wa ra world).2
  exact ⟨a, b, by rw [hb, ha, List.append_assoc]; rfl, hida, hidb⟩

/-- C9, on the code: when the write of the success body fails, `handleFetchPrice`
returns the error of `writeJSON` after status 200 has been written, and the
handler then writes status 400 too. Over the reference service, `GET
/?ticker=BTC` on a response writer whose `Write` fails makes the status writes
200, 400; over a service that quotes `NaN`, a healthy writer receives the status
writes 200, 400 and the body `{"error": "json: unsupported value: NaN"}`. -/
theorem handler_second_WriteHeader (addr : String) (g : Rand) (world : World) (e : GoError) :
    ((makeHTTPHandlerFunc (NewJSONAPIServer addr main.svc).handleFetchPrice g).1
          (ResponseWriter.failing e) (Request.get "ticker=BTC") world).1 =
        ⟨[200, 400], [], some e⟩ ∧
      ((makeHTTPHandlerFunc (NewJSONAPIServer addr (constService .nan)).handleFetchPrice g).1
          ResponseWriter.fresh (Request.get "ticker=BTC") world).1 =
        ⟨[200, 400], [[("error", .str "json: unsupported value: NaN")]], none⟩ := by
  have hq : (Request.get "ticker=BTC").URL.Query.Get "ticker" = "BTC" := by decide
  constructor
  · rw [makeHTTPHandlerFunc_apply,
      handleFetchPrice_ok (NewJSONAPIServer addr main.svc) (handlerContext g) _ _ world _
        (.finite 20000) (by rw [hq]; exact main_svc_known _ "BTC" _ world (by decide))]
    rfl
  · rw [makeHTTPHandlerFunc_apply,
      handleFetchPrice_ok (NewJSONAPIServer addr (constService .nan)) (handlerContext g) _ _
        world world .nan rfl]
    rfl

/-- C10, on the code: the URL built by `Client.FetchPrice` for the ticker
"BTC&x=1", which is not a key of `priceMocks`, is
"http://localhost:3000?ticker=BTC&x=1"; its query is "ticker=BTC&x=1", from
which `handleFetchPrice` extracts the ticker "BTC", and the handler answers
with status 200 and the body `{"ticker":"BTC","price":20000}`. The same happens
for "%42TC" and for "BTC#x", while the plain ticker "BTC" comes back as sent. -/
theorem client_ticker_not_escaped :
    "BTC&x=1" ∉ priceMocks.map Prod.fst ∧
      Client.requestURL (Client.New "http://localhost:3000") "BTC&x=1" =
        "http://localhost:3000?ticker=BTC&x=1" ∧
      rawQueryOf (Client.requestURL (Client.New "http://localhost:3000") "BTC&x=1") =
        "ticker=BTC&x=1" ∧
      (⟨"/", rawQueryOf (Client.requestURL (Client.New "http://localhost:3000") "BTC&x=1")⟩ :
        URL).Query.Get "ticker" = "BTC" ∧
      ((makeHTTPHandlerFunc (NewJSONAPIServer ":3000" main.svc).handleFetchPrice Rand.counting).1
          ResponseWriter.fresh
          ⟨"get", ⟨"/", rawQueryOf
            (Client.requestURL (Client.New "http://localhost:3000") "BTC&x=1")⟩⟩ ⟨0, []⟩).1 =
        ⟨[200], [[("ticker", .str "BTC"), ("price", .num 20000)]], none⟩ ∧
      (⟨"/", rawQueryOf (Client.requestURL (Client.New "http://localhost:3000") "%42TC")⟩ :
        URL).Query.Get "ticker" = "BTC" ∧
      (⟨"/", rawQueryOf (Client.requestURL (Client.New "http://localhost:3000") "BTC#x")⟩ :
        URL).Query.Get "ticker" = "BTC" ∧
      (⟨"/", rawQueryOf (Client.requestURL (Client.New "http://localhost:3000") "BTC")⟩ :
        URL).Query.Get "ticker" = "BTC" := by
  refine ⟨by decide, by decide, by decide, by decide, by decide, by decide, by decide, by decide⟩

end Pricefetcher
